import Mathlib

/-!
Shallow embedding of the twkl compiler front-end (sources: the twinkle
stmt/codegen translation units, the maple expression lowerer in
lib/src/codegen/expr.cpp, the miko Spirit.X3 parser in parse.cpp, the type
AST in ast.hpp and the tables in codegen/codegen.hpp), together with
theorems settling the frozen claims about the specification.
-/

/-! ## Integer implicit conversion (lib/src/codegen/expr.cpp, IntegerImplicitConversion) -/

/-- A lowered integer value as the expression lowerer sees it: the LLVM
integer bit width of its type and the signedness tag carried by `Value`. -/
structure CgIntValue where
  width : Nat
  signed : Bool
deriving DecidableEq, Repr

/-- Embedding of `IntegerImplicitConversion` (expr.cpp lines 117-138): when
the two bit widths differ, the narrower operand is cast to the wider
operand's width and the cast value is tagged with the wider operand's
signedness; when the widths are equal the function does nothing. -/
def integerImplicitConversion (lhs rhs : CgIntValue) : CgIntValue × CgIntValue :=
  if lhs.width ≠ rhs.width then
    let maxWidth := max lhs.width rhs.width
    let asIsSigned := if lhs.width = maxWidth then lhs.signed else rhs.signed
    if lhs.width = maxWidth then
      (lhs, ⟨maxWidth, asIsSigned⟩)
    else
      (⟨maxWidth, asIsSigned⟩, rhs)
  else
    (lhs, rhs)

/-! ## Char literal lowering (lib/src/codegen/expr.cpp, operator()(const ast::CharLiteral&)) -/

/-- An LLVM integer constant: its type's bit width and its (truncated) value. -/
structure LLVMConstInt where
  width : Nat
  value : Nat
deriving DecidableEq, Repr

/-- Embedding of `llvm::ConstantInt::get(IntNTy, v)`: the 64-bit input value
is truncated to the width of the integer type. -/
def constantIntGet (width : Nat) (v : Nat) : LLVMConstInt :=
  ⟨width, v % 2 ^ width⟩

/-- Embedding of the char-literal case of the expression visitor
(expr.cpp lines 65-69): `ConstantInt::get(ctx.builder.getInt8Ty(), node.ch)`
with the source comment "Char literal is u8"; `node.ch` is the Unicode
codepoint stored in `ast::CharLiteral` (ast.hpp lines 301-304). -/
def lowerCharLiteral (cp : Nat) : LLVMConstInt :=
  constantIntGet 8 cp

/-! ## Function call lowering (lib/src/codegen/expr.cpp, operator()(const ast::FunctionCall&)) -/

/-- Minimal LLVM type model needed for call-site validation. -/
inductive LLVMTy where
  | intTy (width : Nat)
  | ptrTy
  | fltTy
deriving DecidableEq, Repr

/-- The callee as `llvm::Function` exposes it to the call lowerer: the list
of declared parameter types and the variadic flag. -/
structure CalleeFn where
  params : List LLVMTy
  varArg : Bool
deriving DecidableEq, Repr

/-- Errors the call lowerer can raise (each is a thrown runtime_error in the
source). -/
inductive CallErr where
  | incorrectArgCount
  | incompatibleArg
deriving DecidableEq, Repr

/-- Embedding of the argument verification loop (expr.cpp lines 262-271):
walk the callee's declared parameters in order and compare the already
generated argument's LLVM type for exact equality; the first mismatch
raises. Walking both lists in parallel is the indexed loop of the source;
the `[]` arm models the out-of-bounds read `args_value[idx]` (undefined
behaviour in the C++, reachable only for a variadic callee given fewer
arguments than declared parameters). -/
def verifyCallArgs : List LLVMTy → List LLVMTy → Except CallErr Unit
  | [], _ => .ok ()
  | _ :: _, [] => .error .incompatibleArg
  | p :: ps, a :: rest => if a = p then verifyCallArgs ps rest else .error .incompatibleArg

/-- Embedding of the function-call case (expr.cpp lines 234-274) after the
callee has been resolved: a non-variadic callee whose parameter count
differs from the argument count raises `incorrectArgCount`; otherwise each
argument type is compared to the parameter type for exact equality and the
call is emitted only when all comparisons pass. No cast of any kind is
inserted at the call site. -/
def lowerFunctionCall (callee : CalleeFn) (args : List LLVMTy) : Except CallErr Unit :=
  if !callee.varArg && callee.params.length ≠ args.length then
    .error .incorrectArgCount
  else
    verifyCallArgs callee.params args

/-- Implicit integer widening relation used to state the claim's "with
implicit integer widening where permitted" clause: an integer argument may
widen to an integer parameter of at least its width; all other types must
match exactly. -/
def widensTo : LLVMTy → LLVMTy → Bool
  | .intTy wa, .intTy wp => wa ≤ wp
  | a, b => a = b

/-! ## Namespace stack ordering (codegen/codegen.hpp, Namespace / NamespaceStack) -/

/-- Embedding of `NamespaceKind` (codegen.hpp lines 120-124). -/
inductive TwNamespaceKind where
  | unknown
  | namespace_
  | class_
deriving DecidableEq, Repr

/-- Identifier names. The source stores identifiers as `std::u32string`, a
sequence of 32-bit characters; it is modelled as a list of characters so
that the lexicographic `operator<` of `std::basic_string` is the
lexicographic order on the list. -/
abbrev TwName := List Char

/-- Embedding of `std::basic_string::operator<`, the lexicographic
comparison on the character sequence. -/
def charListLess : TwName → TwName → Bool
  | _, [] => false
  | [], _ :: _ => true
  | a :: l1, b :: l2 =>
    if a < b then true
    else if b < a then false
    else charListLess l1 l2

/-- Embedding of `Namespace` (codegen.hpp lines 126-146): a name and a kind. -/
structure TwNamespace where
  name : TwName
  kind : TwNamespaceKind
deriving DecidableEq, Repr

/-- Embedding of `Namespace::operator<` (codegen.hpp lines 139-142): it
compares the names only; the kind does not participate. -/
def namespaceLess (a b : TwNamespace) : Bool :=
  charListLess a.name b.name

/-- Embedding of `std::lexicographical_compare` over two sequences with a
strict comparison on elements. -/
def lexCompare {α : Type} (less : α → α → Bool) : List α → List α → Bool
  | _, [] => false
  | [], _ :: _ => true
  | a :: l1, b :: l2 =>
    if less a b then true
    else if less b a then false
    else lexCompare less l1 l2

/-- Embedding of `NamespaceStack::operator<` (codegen.hpp lines 193-200):
`std::lexicographical_compare` over the entries using `Namespace::operator<`. -/
def namespaceStackLess (a b : List TwNamespace) : Bool :=
  lexCompare namespaceLess a b

/-! ## Break / continue lowering (twinkle stmt.cpp, StmtVisitor operator()(ast::Break) / (ast::Continue)) -/

/-- Instructions the statement lowerer emits that matter to the claims:
unconditional branches and destructor calls (a call to a class's destructor
on a local variable's alloca). -/
inductive CgInstr where
  | br (target : String)
  | callDtor (var : String) (cls : String)
deriving DecidableEq, Repr

/-- Embedding of `StmtContext` as used by the statement visitor: the current
scope's destruct block, the function-wide end block, and the optional
break/continue target blocks (null outside of loops). -/
structure TwStmtContext where
  destructBB : String
  endBB : String
  breakBB : Option String
  continueBB : Option String
deriving DecidableEq, Repr

/-- Embedding of `StmtVisitor::operator()(ast::Break)` (stmt.cpp lines
1896-1900 of the concatenated source): if a break target exists, emit a
single raw unconditional branch to it; otherwise emit nothing. No error
path exists and no destructor call is emitted. -/
def lowerBreak (sc : TwStmtContext) : List CgInstr :=
  match sc.breakBB with
  | some bb => [CgInstr.br bb]
  | none => []

/-- Embedding of `StmtVisitor::operator()(ast::Continue)` (stmt.cpp lines
1902-1906): same shape as break, targeting the continue block. -/
def lowerContinue (sc : TwStmtContext) : List CgInstr :=
  match sc.continueBB with
  | some bb => [CgInstr.br bb]
  | none => []

/-- Number of destructor-call instructions in an emitted sequence. -/
def countDtorCalls (instrs : List CgInstr) : Nat :=
  (instrs.filter (fun i => match i with | .callDtor _ _ => true | _ => false)).length

/-! ## Symbol table and the synthesized destruct block (twinkle stmt.cpp, createStatement / createDestructBB; codegen.hpp SymbolTable) -/

/-- The language-level type of a local as the destruct machinery needs it:
a class type (with its class name) or anything else. -/
inductive CgType where
  | classTy (name : String)
  | intTy (width : Nat) (signed : Bool)
deriving DecidableEq, Repr

/-- Whether a type is a class type (`Type::isClassTy`). -/
def CgType.isClassTy : CgType → Bool
  | .classTy _ => true
  | _ => false

/-- Embedding of `SymbolTable = Table<std::string, std::shared_ptr<Variable>>`
(codegen.hpp lines 115-116). The backing container is a `std::unordered_map`,
whose iteration order is unspecified; it is modelled here as insertion
order. Nothing in the source imposes any relation between iteration order
and declaration order. -/
abbrev TwSymbolTable := List (String × CgType)

/-- Embedding of `Table::insertOrAssign` (codegen.hpp lines 65-69,
`std::unordered_map::insert_or_assign`): if the key is present its mapped
value is replaced, otherwise a new entry is added. The source comment at the
variable-definition visitor reads "May be shadowed and must be
overwriteable". -/
def insertOrAssign (t : TwSymbolTable) (key : String) (v : CgType) : TwSymbolTable :=
  if t.any (fun e => e.1 = key) then
    t.map (fun e => if e.1 = key then (key, v) else e)
  else
    t ++ [(key, v)]

/-- A variable definition statement as the scope machinery sees it: the
declared name and its resolved type. -/
structure TwVariableDef where
  name : String
  ty : CgType
deriving DecidableEq, Repr

/-- Embedding of the scope a compound statement accumulates: each
`ast::VariableDef` is lowered with `scope.insertOrAssign(name, variable)`
(stmt.cpp lines 1632-1671). -/
def buildScope (defs : List TwVariableDef) : TwSymbolTable :=
  defs.foldl (fun t d => insertOrAssign t d.name d.ty) []

/-- Embedding of the destructor-call loop of `createDestructBB` (stmt.cpp
lines 2100-2116) combined with `invokeDestructor` (lines 2089-2098): iterate
the scope's symbol table; for each entry of class type whose class defines a
destructor, emit one call to that destructor on the entry's alloca; if the
destructor is not defined, nothing is done. `hasDtor` tells whether a class
name resolves to a defined destructor. -/
def destructBBCalls (symbols : TwSymbolTable) (hasDtor : String → Bool) : List CgInstr :=
  symbols.flatMap (fun e =>
    match e.2 with
    | .classTy c => if hasDtor c then [CgInstr.callDtor e.1 c] else []
    | _ => [])

/-- The class-typed locals of a list of definitions, in declaration order,
each paired with its class name — the list the claim's "each class-typed
local ... in reverse declaration order" quantifies over. -/
def classLocals (defs : List TwVariableDef) : List (String × String) :=
  defs.filterMap (fun d =>
    match d.ty with
    | .classTy c => some (d.name, c)
    | _ => none)

/-- The last type bound to a name by a sequence of definitions (the value
that survives in the symbol table after all `insertOrAssign` calls). -/
def lastTypeOf : List TwVariableDef → String → Option CgType
  | [], _ => none
  | d :: ds, n =>
    match lastTypeOf ds n with
    | some ty => some ty
    | none => if d.name = n then some d.ty else none

/-- Number of destructor calls performed on the local named `n`. -/
def countCallsOn (n : String) (instrs : List CgInstr) : Nat :=
  (instrs.filter (fun i => match i with | .callDtor v _ => v = n | _ => false)).length

/-! ## Prefix increment / decrement (twinkle stmt.cpp, operator()(const ast::PrefixIncrementDecrement&)) -/

/-- Modelled from the spec: the bodies of `createAdd`/`createSub` are not
under src/ (only their call sites are). Section 4.3 of the spec says the
promotion function on two integer types "returns the wider type", so the
width at which the addition/subtraction is performed is the maximum of the
two operand widths. -/
def createAddWidth (l r : Nat) : Nat :=
  max l r

/-- Shape of the code emitted for a prefix `++`/`--` statement on an integer
operand of the given width. -/
structure IncDecLowering where
  oneWidth : Nat
  oneValue : Nat
  arithWidth : Nat
  storedWidth : Nat
  operandWidth : Nat
  producesValue : Bool
deriving DecidableEq, Repr

/-- Embedding of the prefix increment/decrement case (stmt.cpp lines
1683-1713): the operand is dereferenced, the constant `one` is built as
`llvm::ConstantInt::get(ctx.builder.getInt32Ty(), 1)` with type
`BuiltinTypeKind::i32` — always 32 bits, independent of the operand — the
sum/difference `createAdd`/`createSub` of the operand and `one` is stored
back through the operand's pointer, and the visitor returns `void` (the
statement yields no value). -/
def lowerIncDec (operandWidth : Nat) : IncDecLowering :=
  ⟨32, 1, createAddWidth operandWidth 32, createAddWidth operandWidth 32, operandWidth, false⟩

/-! ## Type ordering and the created-class-template table (ast.hpp type AST; codegen.hpp CreatedClassTemplateTable) -/

/-- Embedding of `ast::Type = boost::variant<blank, BuiltinType,
UserDefinedType, UserDefinedTemplateType, ArrayType, PointerType,
ReferenceType>` (ast.hpp lines 156-162). `BuiltinTypeKind` values are
modelled as naturals; identifiers (UTF-32 strings) as `String`; a pointer
type's `n_ops` vector of `boost::blank` as its length. -/
inductive CxxTy where
  | blank
  | builtin (kind : Nat)
  | userDefined (name : TwName)
  | udTemplate (base : TwName) (args : List CxxTy)
  | array (elem : CxxTy) (size : Nat)
  | pointer (nOps : Nat) (pointee : CxxTy)
  | reference (refee : CxxTy)

/-- The `which()` index of a type inside the `boost::variant`, in the
declaration order of the variant's alternatives. `boost::variant::operator<`
compares these indices first. -/
def CxxTy.whichIdx : CxxTy → Nat
  | .blank => 0
  | .builtin _ => 1
  | .userDefined _ => 2
  | .udTemplate _ _ => 3
  | .array _ _ => 4
  | .pointer _ _ => 5
  | .reference _ => 6

mutual
/-- Embedding of the `operator<` network of the type AST (ast.hpp):
`BuiltinType::operator<` compares kinds; `UserDefinedType::operator<`
compares names; `UserDefinedTemplateType::operator<` (lines 212-216) is
`template_type < other.template_type && template_args < other.template_args`
— a conjunction, not a lexicographic comparison; `ArrayType::operator<`
(lines 230-233) is `element_type < other.element_type && size < other.size`;
`PointerType::operator<` (lines 255-258) is `n_ops < other.n_ops &&
pointee_type < other.pointee_type` (two `std::vector<boost::blank>` compare
lexicographically, which reduces to comparing their lengths);
`ReferenceType::operator<` compares referents; the variant itself compares
`which()` first and contents only when the alternatives agree.
`TemplateArguments::operator<` (lines 192-196) is the proper lexicographic
`std::vector` comparison of the argument types. The first argument is fuel
(the functions are evaluated on concrete types; any fuel at least the
nesting depth gives the C++ value, and fuel exhaustion returns `false`). -/
def tyLess : Nat → CxxTy → CxxTy → Bool
  | 0, _, _ => false
  | f + 1, a, b =>
    if a.whichIdx ≠ b.whichIdx then decide (a.whichIdx < b.whichIdx)
    else
      match a, b with
      | .builtin k1, .builtin k2 => decide (k1 < k2)
      | .userDefined n1, .userDefined n2 => charListLess n1 n2
      | .udTemplate b1 args1, .udTemplate b2 args2 =>
        charListLess b1 b2 && tyListLess f args1 args2
      | .array e1 s1, .array e2 s2 => tyLess f e1 e2 && decide (s1 < s2)
      | .pointer n1 p1, .pointer n2 p2 => decide (n1 < n2) && tyLess f p1 p2
      | .reference r1, .reference r2 => tyLess f r1 r2
      | _, _ => false

/-- Embedding of `std::vector<ast::Type>::operator<`, the proper
lexicographic comparison used by `TemplateArguments::operator<`. -/
def tyListLess : Nat → List CxxTy → List CxxTy → Bool
  | 0, _, _ => false
  | _ + 1, _, [] => false
  | _ + 1, [], _ :: _ => true
  | f + 1, a :: l1, b :: l2 =>
    if tyLess f a b then true
    else if tyLess f b a then false
    else tyListLess f l1 l2
end

/-- Embedding of `CreatedClassTemplateTableKey = std::tuple<std::string,
ast::TemplateArguments, NamespaceStack>` (codegen.hpp lines 226-228). -/
structure CCTKey where
  name : TwName
  args : List CxxTy
  ns : List TwNamespace

/-- Embedding of `std::tuple::operator<` on the key: lexicographic over the
three components, each compared with its own `operator<` in both
directions. -/
def keyLess (f : Nat) (a b : CCTKey) : Bool :=
  if charListLess a.name b.name then true
  else if charListLess b.name a.name then false
  else if tyListLess f a.args b.args then true
  else if tyListLess f b.args a.args then false
  else namespaceStackLess a.ns b.ns

/-- Two keys are equivalent for an ordered container exactly when neither
compares less than the other. -/
def keyEquiv (f : Nat) (a b : CCTKey) : Bool :=
  !keyLess f a b && !keyLess f b a

/-- Modelled from the spec: the bodies of
`CreatedClassTemplateTable::operator[]` and
`CreatedClassTemplateTable::insert` are not under src/ (codegen.hpp lines
233-249 only declares them over a `std::set<CreatedClassTemplateTableElem>`).
The spec says the table "memoizes instantiations" keyed by
`(name, template-args, namespace)`; lookup is modelled as a search for an
element whose key is equivalent — under the key ordering declared in the
source, the only comparison the key type defines — to the requested key. -/
def cctLookup (f : Nat) (table : List (CCTKey × Nat)) (k : CCTKey) : Option Nat :=
  (table.find? (fun e => keyEquiv f e.1 k)).map (fun e => e.2)

/-- Modelled from the spec: memoizing insert — a new entry is created only
when no equivalent key is already present. -/
def cctInsert (f : Nat) (table : List (CCTKey × Nat)) (k : CCTKey) (v : Nat) :
    List (CCTKey × Nat) :=
  match cctLookup f table k with
  | some _ => table
  | none => (k, v) :: table

/-! ## The miko Spirit.X3 parser (parse.cpp) -/

/-- Outcome of running a parser: success with the remaining input, an
ordinary (recoverable) failure, or a propagating `x3::expectation_failure`
thrown by the `>` operator and not yet caught by a rule with an `on_error`
handler. -/
inductive POut where
  | ok (rest : List Char)
  | soft
  | exc
deriving DecidableEq, Repr

/-- A parser maps the input and the current value of the process-global
`with_error_handling::total_errors` counter to an outcome and the updated
counter (the counter is static in the source and only ever incremented). -/
abbrev TwParser := List Char → Nat → POut × Nat

/-- Embedding of `x3::space`: the whitespace characters of `std::isspace`. -/
def isSpaceChar (c : Char) : Bool :=
  c = ' ' || c = '\t' || c = '\n' || c = '\r' || c = Char.ofNat 11 || c = Char.ofNat 12

/-- Consume the tail of a `//` comment up to and including the end of line
(`x3::eol` accepts a carriage-return/line-feed pair, a line feed, or a
carriage return; end of input also terminates the comment). -/
def dropLineComment : List Char → List Char
  | [] => []
  | '\r' :: '\n' :: rest => rest
  | '\r' :: rest => rest
  | '\n' :: rest => rest
  | _ :: rest => dropLineComment rest

/-- Scan a nested `/* ... */` block comment body at the given nesting depth,
returning the input after the matching close, or `none` when the comment is
unterminated (in which case the skipper rule fails and consumes nothing). -/
def scanBlockComment : List Char → Nat → Option (List Char)
  | [], _ => none
  | '*' :: '/' :: rest, 1 => some rest
  | '*' :: '/' :: rest, d + 2 => scanBlockComment rest (d + 1)
  | '/' :: '*' :: rest, d => scanBlockComment rest (d + 1)
  | _ :: rest, d => scanBlockComment rest d

/-- One application of the skipper rule `skipper = x3::space | comment`:
consume one whitespace character, a single-line comment, or a block
comment; `none` when the skipper does not apply at this position. -/
def skipIter : List Char → Option (List Char)
  | '/' :: '/' :: rest => some (dropLineComment rest)
  | '/' :: '*' :: rest => scanBlockComment rest 1
  | c :: rest => if isSpaceChar c then some rest else none
  | [] => none

/-- Repeatedly apply the skipper (`x3::phrase_parse` pre-skips before every
primitive parser); the fuel is an upper bound on the number of skipper
applications and each application consumes at least one character. -/
def skipAllFuel (fuel : Nat) (inp : List Char) : List Char :=
  match fuel with
  | 0 => inp
  | f + 1 =>
    match skipIter inp with
    | some rest => skipAllFuel f rest
    | none => inp

/-- Skip as much as the skipper accepts at the current position. -/
def skipAll (inp : List Char) : List Char :=
  skipAllFuel (inp.length + 1) inp

/-- Match a literal character sequence at the head of the input. -/
def stripLit : List Char → List Char → Option (List Char)
  | [], inp => some inp
  | _ :: _, [] => none
  | c :: cs, d :: ds => if c = d then stripLit cs ds else none

/-- Embedding of `x3::lit(s)` / `x3::string(s)` under the skipper: pre-skip,
then match the characters of `s` verbatim (no keyword boundary is checked,
exactly as in the source grammar). -/
def litP (s : List Char) : TwParser := fun inp n =>
  match stripLit s (skipAll inp) with
  | some rest => (POut.ok rest, n)
  | none => (POut.soft, n)

/-- Literal given as a string. -/
def litS (s : String) : TwParser :=
  litP s.toList

/-- Embedding of `x3::char_("...")`: pre-skip, then accept one character
drawn from the given set. -/
def charAmongP (s : List Char) : TwParser := fun inp n =>
  match skipAll inp with
  | c :: rest => if s.contains c then (POut.ok rest, n) else (POut.soft, n)
  | [] => (POut.soft, n)

/-- Consume the remaining identifier characters `(alnum | '_')*`. -/
def identTail : List Char → List Char
  | [] => []
  | c :: rest => if c.isAlphanum || c = '_' then identTail rest else c :: rest

/-- Embedding of the `identifier` rule:
`raw[lexeme[(alpha | '_') >> *(alnum | '_')]]` — pre-skip, then one letter
or underscore followed by letters, digits and underscores, with no skipping
inside the lexeme. -/
def identifierP : TwParser := fun inp n =>
  match skipAll inp with
  | c :: rest =>
    if c.isAlpha || c = '_' then (POut.ok (identTail rest), n) else (POut.soft, n)
  | [] => (POut.soft, n)

/-- Consume remaining digits. -/
def digitsTail : List Char → List Char
  | [] => []
  | c :: rest => if c.isDigit then digitsTail rest else c :: rest

/-- Embedding of the `integer` rule (`x3::int_`): pre-skip, an optional sign
followed by at least one digit. -/
def integerP : TwParser := fun inp n =>
  match skipAll inp with
  | c :: rest =>
    if c.isDigit then (POut.ok (digitsTail rest), n)
    else if c = '-' || c = '+' then
      match rest with
      | d :: rest2 => if d.isDigit then (POut.ok (digitsTail rest2), n) else (POut.soft, n)
      | [] => (POut.soft, n)
    else (POut.soft, n)
  | [] => (POut.soft, n)

/-- Embedding of `x3::eoi`: pre-skip, then succeed only at end of input. -/
def eoiP : TwParser := fun inp n =>
  match skipAll inp with
  | [] => (POut.ok [], n)
  | _ :: _ => (POut.soft, n)

/-- Embedding of `a >> b`: if `a` succeeds, run `b` on the rest; an
ordinary failure of `b` makes the whole sequence fail ordinarily (the
enclosing combinator backtracks to its own saved position); a propagating
expectation failure passes through. -/
def pseq (p q : TwParser) : TwParser := fun inp n =>
  match p inp n with
  | (POut.ok rest, n1) => q rest n1
  | other => other

/-- Embedding of `a > b` (the expectation operator): if `a` succeeds and
`b` then fails ordinarily, an `x3::expectation_failure` is thrown, which
propagates as `exc` until a rule with an `on_error` handler catches it. -/
def pexpect (p q : TwParser) : TwParser := fun inp n =>
  match p inp n with
  | (POut.ok rest, n1) =>
    match q rest n1 with
    | (POut.soft, n2) => (POut.exc, n2)
    | other => other
  | other => other

/-- Embedding of `a | b`: on an ordinary failure of `a` the alternative `b`
is tried at the same position; a propagating expectation failure is an
exception and is not recovered by the alternative operator. -/
def palt (p q : TwParser) : TwParser := fun inp n =>
  match p inp n with
  | (POut.soft, n1) => q inp n1
  | other => other

/-- Embedding of a rule whose tag inherits `with_error_handling`: its
`on_error` handler increments the global `total_errors` counter, reports the
diagnostic and returns `x3::error_handler_result::fail`, so the expectation
failure is converted into an ordinary failure of the rule (parse.cpp lines
67-86). Rules without a handler are not wrapped. -/
def prule (p : TwParser) : TwParser := fun inp n =>
  match p inp n with
  | (POut.exc, n1) => (POut.soft, n1 + 1)
  | other => other

/-- Embedding of `-a` (optional): an ordinary failure of `a` succeeds
consuming nothing; a propagating expectation failure passes through. -/
def popt (p : TwParser) : TwParser := fun inp n =>
  match p inp n with
  | (POut.soft, n1) => (POut.ok inp, n1)
  | other => other

/-- Embedding of `*a` (Kleene star): repeat `a` until it fails ordinarily,
succeeding at the position reached so far; a propagating expectation
failure passes through. The fuel bounds the number of iterations. -/
def pstar (p : TwParser) : Nat → TwParser
  | 0 => fun inp n => (POut.ok inp, n)
  | f + 1 => fun inp n =>
    match p inp n with
    | (POut.ok rest, n1) => pstar p f rest n1
    | (POut.soft, n1) => (POut.ok inp, n1)
    | (POut.exc, n1) => (POut.exc, n1)

/-- The `assignment_operator` rule (no handler on its tag): `x3::string("=")`. -/
def assignOpP : TwParser := litS "="

/-- The `equality_operator` rule: `"==" | "!="`. -/
def equalityOpP : TwParser := palt (litS "==") (litS "!=")

/-- The `relational_operator` rule: `"<=" | ">=" | "<" | ">"`. -/
def relationalOpP : TwParser :=
  palt (litS "<=") (palt (litS ">=") (palt (litS "<") (litS ">")))

/-- The `additive_operator` rule: `x3::char_("+-")`. -/
def additiveOpP : TwParser := charAmongP ['+', '-']

/-- The `multitive_operator` rule: `x3::char_("*/")`. -/
def multitiveOpP : TwParser := charAmongP ['*', '/']

/-- The `unary_operator` rule: `x3::char_("+-")`. -/
def unaryOpP : TwParser := charAmongP ['+', '-']

/-- The opening curly brace character. -/
def lbraceChar : Char := Char.ofNat 123

/-- The closing curly brace character. -/
def rbraceChar : Char := Char.ofNat 125

mutual
/-- The `expression` rule: `expression_def = assignment`; its tag has the
error handler. The fuel decreases at every rule reentry; with fuel at least
the grammar's recursion depth on the given input this is the source
grammar. -/
def expressionP : Nat → TwParser
  | 0 => fun _ n => (POut.soft, n)
  | f + 1 => prule (assignmentP f)

/-- The `assignment` rule: `equality >> *(assignment_operator > equality)`. -/
def assignmentP : Nat → TwParser
  | 0 => fun _ n => (POut.soft, n)
  | f + 1 => prule (pseq (equalityP f) (pstar (pexpect assignOpP (equalityP f)) f))

/-- The `equality` rule: `relational >> *(equality_operator > relational)`. -/
def equalityP : Nat → TwParser
  | 0 => fun _ n => (POut.soft, n)
  | f + 1 => prule (pseq (relationalP f) (pstar (pexpect equalityOpP (relationalP f)) f))

/-- The `relational` rule: `addition >> *(relational_operator > addition)`. -/
def relationalP : Nat → TwParser
  | 0 => fun _ n => (POut.soft, n)
  | f + 1 => prule (pseq (additionP f) (pstar (pexpect relationalOpP (additionP f)) f))

/-- The `addition` rule: `multiplication >> *(additive_operator > multiplication)`. -/
def additionP : Nat → TwParser
  | 0 => fun _ n => (POut.soft, n)
  | f + 1 => prule (pseq (multiplicationP f) (pstar (pexpect additiveOpP (multiplicationP f)) f))

/-- The `multiplication` rule: `unary >> *(multitive_operator > unary)`. -/
def multiplicationP : Nat → TwParser
  | 0 => fun _ n => (POut.soft, n)
  | f + 1 => prule (pseq (unaryP f) (pstar (pexpect multitiveOpP (unaryP f)) f))

/-- The `unary` rule: `(unary_operator > primary) | primary`. -/
def unaryP : Nat → TwParser
  | 0 => fun _ n => (POut.soft, n)
  | f + 1 => prule (palt (pexpect unaryOpP (primaryP f)) (primaryP f))

/-- The `primary` rule:
`('(' > expression > ')') | integer | (identifier >> '(' > argument_list > ')') | identifier`.
In the third alternative the first `(` is joined with `>>` (backtrackable),
the rest with `>`. -/
def primaryP : Nat → TwParser
  | 0 => fun _ n => (POut.soft, n)
  | f + 1 =>
    prule (palt (pexpect (pexpect (litS "(") (expressionP f)) (litS ")"))
      (palt integerP
        (palt (pseq identifierP (pexpect (pexpect (litS "(") (argListP f)) (litS ")")))
          identifierP)))

/-- The `argument_list` rule: `-(expression >> *(',' > expression))`; its
tag has the error handler. -/
def argListP : Nat → TwParser
  | 0 => fun _ n => (POut.soft, n)
  | f + 1 => prule (popt (pseq (expressionP f) (pstar (pexpect (litS ",") (expressionP f)) f)))

/-- The `statement` rule:
`';' | return_statement | variable_def_statement | if_statement | for_statement | expression_statement`. -/
def statementP : Nat → TwParser
  | 0 => fun _ n => (POut.soft, n)
  | f + 1 =>
    prule (palt (litS ";")
      (palt (returnStmtP f)
        (palt (varDefStmtP f)
          (palt (ifStmtP f)
            (palt (forStmtP f) (exprStmtP f))))))

/-- The `expression_statement` rule: `expression > ';'`. -/
def exprStmtP : Nat → TwParser
  | 0 => fun _ n => (POut.soft, n)
  | f + 1 => prule (pexpect (expressionP f) (litS ";"))

/-- The `variable_def_statement` rule:
`"var" > -variable_qualifier > identifier > -('=' > expression) > ';'`.
The handler struct in the source is named `variable_def_statement` while the
rule's tag is `variable_def_statement_tag`, so this rule has NO error
handler attached: an expectation failure inside it propagates to the
enclosing `statement` rule. -/
def varDefStmtP : Nat → TwParser
  | 0 => fun _ n => (POut.soft, n)
  | f + 1 =>
    pexpect
      (pexpect
        (pexpect (pexpect (litS "var") (popt (litS "mutable"))) identifierP)
        (popt (pexpect (litS "=") (expressionP f))))
      (litS ";")

/-- The `return_statement` rule: `"ret" > expression > ';'`. -/
def returnStmtP : Nat → TwParser
  | 0 => fun _ n => (POut.soft, n)
  | f + 1 => prule (pexpect (pexpect (litS "ret") (expressionP f)) (litS ";"))

/-- The `compound_statement_or_statement` rule (tag without handler):
`compound_statement | statement`. -/
def compOrStmtP : Nat → TwParser
  | 0 => fun _ n => (POut.soft, n)
  | f + 1 => palt (compoundStmtP f) (statementP f)

/-- The `if_statement` rule:
`"if" > '(' > expression > ')' > compound_statement_or_statement > -("else" > compound_statement_or_statement)`. -/
def ifStmtP : Nat → TwParser
  | 0 => fun _ n => (POut.soft, n)
  | f + 1 =>
    prule (pexpect
      (pexpect
        (pexpect (pexpect (pexpect (litS "if") (litS "(")) (expressionP f)) (litS ")"))
        (compOrStmtP f))
      (popt (pexpect (litS "else") (compOrStmtP f))))

/-- The `for_statement` rule:
`"for" > '(' > -expression > ';' > -expression > (';' >> -expression) > ')' > compound_statement_or_statement`
(the shift operator binds tighter than `>` in C++, grouping the second
semicolon with the loop expression). -/
def forStmtP : Nat → TwParser
  | 0 => fun _ n => (POut.soft, n)
  | f + 1 =>
    prule (pexpect
      (pexpect
        (pexpect
          (pexpect
            (pexpect (pexpect (litS "for") (litS "(")) (popt (expressionP f)))
            (litS ";"))
          (popt (expressionP f)))
        (pseq (litS ";") (popt (expressionP f))))
      (pexpect (litS ")") (compOrStmtP f)))

/-- The `compound_statement` rule: `'{' > *statement > '}'`. -/
def compoundStmtP : Nat → TwParser
  | 0 => fun _ n => (POut.soft, n)
  | f + 1 =>
    prule (pexpect (pexpect (litP [lbraceChar]) (pstar (statementP f) f)) (litP [rbraceChar]))

/-- The `parameter_list` rule: `-(identifier >> *(',' > identifier))`. -/
def paramListP : Nat → TwParser
  | 0 => fun _ n => (POut.soft, n)
  | f + 1 => prule (popt (pseq identifierP (pstar (pexpect (litS ",") identifierP) f)))

/-- The `function_proto` rule: `identifier > '(' > parameter_list > ')'`. -/
def funcProtoP : Nat → TwParser
  | 0 => fun _ n => (POut.soft, n)
  | f + 1 =>
    prule (pexpect (pexpect (pexpect identifierP (litS "(")) (paramListP f)) (litS ")"))

/-- The `function_declare` rule: `"extern" > function_proto > ';'`. -/
def funcDeclP : Nat → TwParser
  | 0 => fun _ n => (POut.soft, n)
  | f + 1 => prule (pexpect (pexpect (litS "extern") (funcProtoP f)) (litS ";"))

/-- The `function_define` rule: `"func" > function_proto > compound_statement`. -/
def funcDefP : Nat → TwParser
  | 0 => fun _ n => (POut.soft, n)
  | f + 1 => prule (pexpect (pexpect (litS "func") (funcProtoP f)) (compoundStmtP f))

/-- The `top_level_stmt` rule: `function_declare | function_define`. -/
def topLevelP : Nat → TwParser
  | 0 => fun _ n => (POut.soft, n)
  | f + 1 => prule (palt (funcDeclP f) (funcDefP f))

/-- The `program` rule: `*top_level_stmt > x3::eoi`. -/
def programP : Nat → TwParser
  | 0 => fun _ n => (POut.soft, n)
  | f + 1 => prule (pexpect (pstar (topLevelP f) f) eoiP)
end

/-- Embedding of `parser::parse` (parse.cpp lines 527-543): run
`x3::phrase_parse` with the `program` rule; if the parse did not succeed or
the whole input was not consumed, throw a `runtime_error` whose message
reports `with_error_handling::total_errors` (modelled as the error payload);
otherwise the AST is accepted. The counter starts at zero for a fresh
process. -/
def parserParse (f : Nat) (input : List Char) : Except Nat Unit :=
  match programP f input 0 with
  | (POut.ok rest, n) => if rest = [] then Except.ok () else Except.error n
  | (_, n) => Except.error n

/-- The concrete program text `func f(){if;}`: a function whose body
contains a malformed if statement that the expression-statement alternative
re-parses successfully (`if` is a valid identifier and `if;` a valid
expression statement). -/
def cexProgramText : List Char :=
  ['f', 'u', 'n', 'c', ' ', 'f', '(', ')', lbraceChar, 'i', 'f', ';', rbraceChar]

/-! ## Helper lemmas -/

/-- Filtering for the replaced key after an in-place key replacement keeps
one replaced entry per matching original entry. -/
theorem filter_replaceKey_eq (t : TwSymbolTable) (k : String) (v : CgType) :
    (t.map (fun e => if e.1 = k then (k, v) else e)).filter (fun e => e.1 = k)
      = (t.filter (fun e => e.1 = k)).map (fun _ => (k, v)) := by
  induction t with
  | nil => rfl
  | cons e t ih =>
    by_cases h : e.1 = k
    · simp [h, ih]
    · simp [h, ih]

/-- Filtering for a different key is unchanged by an in-place key
replacement. -/
theorem filter_replaceKey_ne (t : TwSymbolTable) (k n : String) (v : CgType) (h : k ≠ n) :
    (t.map (fun e => if e.1 = k then (k, v) else e)).filter (fun e => e.1 = n)
      = t.filter (fun e => e.1 = n) := by
  induction t with
  | nil => rfl
  | cons e t ih =>
    by_cases he : e.1 = k
    · simp [he, ih, h]
    · by_cases hn : e.1 = n
      · simp [he, hn, ih, Ne.symm h]
      · simp [he, hn, ih]

/-- A key is present in the table exactly when filtering for it is
non-empty. -/
theorem any_key_iff_filter (t : TwSymbolTable) (n : String) :
    t.any (fun e => e.1 = n) = true ↔ t.filter (fun e => e.1 = n) ≠ [] := by
  induction t with
  | nil => simp
  | cons e t ih =>
    by_cases h : e.1 = n
    · simp [h]
    · simp [h, ih]

/-- The entries of `insertOrAssign t k v` holding a given key, in terms of
the entries of `t`. -/
theorem insertOrAssign_filter (t : TwSymbolTable) (k : String) (v : CgType) (n : String) :
    (insertOrAssign t k v).filter (fun e => e.1 = n)
      = if k = n then
          (if t.any (fun e => e.1 = n) then
            (t.filter (fun e => e.1 = n)).map (fun _ => (n, v))
          else
            t.filter (fun e => e.1 = n) ++ [(n, v)])
        else t.filter (fun e => e.1 = n) := by
  by_cases hk : k = n
  · subst hk
    by_cases ha : t.any (fun e => e.1 = k)
    · simp [insertOrAssign, ha, filter_replaceKey_eq]
    · simp [insertOrAssign, ha]
  · by_cases ha : t.any (fun e => e.1 = k)
    · simp [insertOrAssign, ha, hk, filter_replaceKey_ne t k n v hk]
    · simp [insertOrAssign, ha, hk]

/-- Folding `insertOrAssign` over a list of variable definitions leaves, for
each name, exactly the entry carrying the last type bound to that name (or
the untouched entries of the start table when the name is never defined).
The invariant is that the start table holds at most one entry per name. -/
theorem foldl_ins_filter (defs : List TwVariableDef) (t : TwSymbolTable) (n : String)
    (hinv : (t.filter (fun e => e.1 = n)).length ≤ 1) :
    ((defs.foldl (fun acc d => insertOrAssign acc d.name d.ty) t).filter (fun e => e.1 = n))
      = match lastTypeOf defs n with
        | some ty => [(n, ty)]
        | none => t.filter (fun e => e.1 = n) := by
  induction defs generalizing t with
  | nil => simp [lastTypeOf]
  | cons d ds ih =>
    have hstep : (List.foldl (fun acc d => insertOrAssign acc d.name d.ty) t (d :: ds))
        = List.foldl (fun acc d => insertOrAssign acc d.name d.ty)
            (insertOrAssign t d.name d.ty) ds := rfl
    have hfilt := insertOrAssign_filter t d.name d.ty n
    have hinv' : ((insertOrAssign t d.name d.ty).filter (fun e => e.1 = n)).length ≤ 1 := by
      rw [hfilt]
      by_cases hk : d.name = n
      · rw [if_pos hk]
        by_cases ha : t.any (fun e => e.1 = n)
        · rw [if_pos ha, List.length_map]
          exact hinv
        · have hnil : t.filter (fun e => e.1 = n) = [] := by
            by_contra hne
            exact ha ((any_key_iff_filter t n).mpr hne)
          rw [if_neg ha, hnil]
          simp
      · rw [if_neg hk]
        exact hinv
    have ihres := ih (insertOrAssign t d.name d.ty) hinv'
    rw [hstep, ihres]
    cases hlast : lastTypeOf ds n with
    | some ty => simp [lastTypeOf, hlast]
    | none =>
      simp only [lastTypeOf, hlast]
      rw [hfilt]
      by_cases hk : d.name = n
      · rw [if_pos hk, if_pos hk]
        by_cases ha : t.any (fun e => e.1 = n)
        · have hne : t.filter (fun e => e.1 = n) ≠ [] := (any_key_iff_filter t n).mp ha
          have hpos : 0 < (t.filter (fun e => e.1 = n)).length :=
            List.length_pos.mpr hne
          have hlen1 : (t.filter (fun e => e.1 = n)).length = 1 := by omega
          obtain ⟨x, hx⟩ := List.length_eq_one.mp hlen1
          rw [if_pos ha, hx]
          rfl
        · have hnil : t.filter (fun e => e.1 = n) = [] := by
            by_contra hne
            exact ha ((any_key_iff_filter t n).mpr hne)
          rw [if_neg ha, hnil]
          rfl
      · rw [if_neg hk, if_neg hk]

/-- Destructor calls on a given name distribute over concatenation. -/
theorem countCallsOn_append (n : String) (l1 l2 : List CgInstr) :
    countCallsOn n (l1 ++ l2) = countCallsOn n l1 + countCallsOn n l2 := by
  simp [countCallsOn, List.filter_append]

/-- The destructor calls the destruct block performs on a name are exactly
the class-typed, destructor-bearing table entries holding that name. -/
theorem countCallsOn_destructBBCalls (t : TwSymbolTable) (hasDtor : String → Bool) (n : String) :
    countCallsOn n (destructBBCalls t hasDtor)
      = ((t.filter (fun e => e.1 = n)).filter (fun e =>
          match e.2 with | CgType.classTy c => hasDtor c | _ => false)).length := by
  induction t with
  | nil => rfl
  | cons e t ih =>
    have hcons : destructBBCalls (e :: t) hasDtor
        = (match e.2 with
            | CgType.classTy c => if hasDtor c then [CgInstr.callDtor e.1 c] else []
            | _ => []) ++ destructBBCalls t hasDtor := by
      simp [destructBBCalls]
    rw [hcons, countCallsOn_append, ih]
    by_cases hn : e.1 = n
    · cases hty : e.2 with
      | classTy c =>
        by_cases hd : hasDtor c
        · simp [hn, hty, hd, countCallsOn]
          omega
        · simp [hn, hty, hd, countCallsOn]
      | intTy w s => simp [hn, hty, countCallsOn]
    · cases hty : e.2 with
      | classTy c =>
        by_cases hd : hasDtor c
        · simp [hn, hty, hd, countCallsOn]
        · simp [hn, hty, hd, countCallsOn]
      | intTy w s => simp [hn, hty, countCallsOn]

/-- Lexicographic string comparison is irreflexive. -/
theorem charListLess_self (l : TwName) : charListLess l l = false := by
  induction l with
  | nil => rfl
  | cons a l ih => simp [charListLess, ih, lt_irrefl]

/-- The type ordering of the AST is irreflexive at every fuel (the
conjunctions in the source's comparisons short-circuit on the first
component, which is never less than itself). -/
theorem tyLess_self_all :
    ∀ f, (∀ t, tyLess f t t = false) ∧ (∀ l, tyListLess f l l = false) := by
  intro f
  induction f with
  | zero => exact ⟨fun t => rfl, fun l => rfl⟩
  | succ f ih =>
    obtain ⟨iht, ihl⟩ := ih
    constructor
    · intro t
      cases t with
      | blank => rfl
      | builtin k => simp [tyLess]
      | userDefined nm => simp [tyLess, charListLess_self]
      | udTemplate b args => simp [tyLess, charListLess_self]
      | array e s => simp [tyLess, iht e]
      | pointer nops p => simp [tyLess]
      | reference r => simp [tyLess, iht r]
    · intro l
      cases l with
      | nil => rfl
      | cons a l => simp [tyListLess, iht a, ihl l]

/-- The namespace-stack ordering is irreflexive. -/
theorem namespaceStackLess_self (l : List TwNamespace) : namespaceStackLess l l = false := by
  induction l with
  | nil => rfl
  | cons a l ih =>
    have h : namespaceLess a a = false := by simp [namespaceLess, charListLess_self]
    simp only [namespaceStackLess, lexCompare, h] at ih ⊢
    simp [ih]

/-- The created-class-template key ordering is irreflexive. -/
theorem keyLess_self (f : Nat) (k : CCTKey) : keyLess f k k = false := by
  have h1 := (tyLess_self_all f).2 k.args
  have h2 := namespaceStackLess_self k.ns
  simp [keyLess, h1, h2, charListLess_self]

/-- Every key is equivalent to itself under the set ordering. -/
theorem keyEquiv_self (f : Nat) (k : CCTKey) : keyEquiv f k k = true := by
  simp [keyEquiv, keyLess_self]

/-- The argument verification loop succeeds exactly when the declared
parameter types are an initial segment of the argument types. -/
theorem verifyCallArgs_ok (ps args : List LLVMTy) :
    verifyCallArgs ps args = Except.ok ()
      ↔ (ps.length ≤ args.length ∧ args.take ps.length = ps) := by
  induction ps generalizing args with
  | nil => simp [verifyCallArgs]
  | cons p ps ih =>
    cases args with
    | nil => simp [verifyCallArgs]
    | cons a rest =>
      by_cases h : a = p
      · subst h
        simp [verifyCallArgs, ih, Nat.succ_le_succ_iff]
      · simp [verifyCallArgs, h, Nat.succ_le_succ_iff]

/-! ## Claim theorems -/

/-- Claim C1, counterexample: the claim asserts that a scope's synthesized
destruct block invokes the destructor of each class-typed local it owns
exactly once, in reverse declaration order. For the scope
`{ var a = A(); var a = A(); }` — two class-typed locals of the same name,
every class having a destructor — the variable-definition visitor's
`insertOrAssign` overwrites the first local's symbol-table entry, so
`createDestructBB` emits a single destructor call where the claim requires
two (one per local, in reverse declaration order); the first local is never
destroyed on any path. -/
theorem c1_counterexample :
    destructBBCalls
        (buildScope [⟨"a", CgType.classTy "A"⟩, ⟨"a", CgType.classTy "A"⟩])
        (fun _ => true)
      ≠ (classLocals [⟨"a", CgType.classTy "A"⟩, ⟨"a", CgType.classTy "A"⟩]).reverse.map
          (fun e => CgInstr.callDtor e.1 e.2) := by
  decide

/-- Claim C1, amended: the destruct block invokes a destructor once per
surviving symbol-table entry, not once per declared local — for every name,
the number of destructor calls on that name is one exactly when the last
definition of that name in the scope is class-typed and the class defines a
destructor, and zero otherwise; a class-typed local shadowed by a later
same-name definition in the same scope receives no destructor call. The
calls run in the unordered symbol table's iteration order (modelled as
insertion order), to which the source applies no reversal. -/
theorem c1_amended (defs : List TwVariableDef) (hasDtor : String → Bool) (n : String) :
    countCallsOn n (destructBBCalls (buildScope defs) hasDtor)
      = match lastTypeOf defs n with
        | some (CgType.classTy c) => if hasDtor c then 1 else 0
        | _ => 0 := by
  rw [countCallsOn_destructBBCalls]
  have h := foldl_ins_filter defs [] n (by simp)
  have hb : buildScope defs = defs.foldl (fun acc d => insertOrAssign acc d.name d.ty) [] := rfl
  rw [hb, h]
  cases hlast : lastTypeOf defs n with
  | none => simp
  | some ty =>
    cases ty with
    | classTy c =>
      by_cases hd : hasDtor c
      · simp [hd]
      · simp [hd]
    | intTy w s => simp

/-- Claim C2: lowering a break or continue statement inside a loop emits a
single raw unconditional branch to the loop's break/continue target and no
destructor call at all, regardless of how many enclosing scopes own
class-typed locals — the code does not drain any scope's destructors, while
the spec requires draining every scope between the statement and the loop's
body scope. -/
theorem c2_break_continue_raw_branch :
    lowerBreak ⟨"destruct", "end", some "while_end", some "while_cond"⟩
        = [CgInstr.br "while_end"]
    ∧ countDtorCalls (lowerBreak ⟨"destruct", "end", some "while_end", some "while_cond"⟩) = 0
    ∧ lowerContinue ⟨"destruct", "end", some "while_end", some "while_cond"⟩
        = [CgInstr.br "while_cond"]
    ∧ countDtorCalls (lowerContinue ⟨"destruct", "end", some "while_end", some "while_cond"⟩)
        = 0 := by
  decide

/-- Claim C3, counterexample: the two keys `("Vec", [A<i32>], [])` and
`("Vec", [B<i32>], [])` are structurally distinct — their template argument
lists differ in the base name of the nested template type — yet
`UserDefinedTemplateType::operator<` demands BOTH the base name and the
argument list be strictly less, so neither key compares less than the other:
they are equivalent for the `std::set` underlying the created-class-template
table, and a lookup of the second key after inserting the first returns the
first key's memoized type. -/
theorem c3_counterexample :
    (⟨"Vec".toList, [CxxTy.udTemplate "A".toList [CxxTy.builtin 5]], []⟩ : CCTKey)
        ≠ ⟨"Vec".toList, [CxxTy.udTemplate "B".toList [CxxTy.builtin 5]], []⟩
    ∧ keyEquiv 100 ⟨"Vec".toList, [CxxTy.udTemplate "A".toList [CxxTy.builtin 5]], []⟩
        ⟨"Vec".toList, [CxxTy.udTemplate "B".toList [CxxTy.builtin 5]], []⟩ = true
    ∧ cctLookup 100
        (cctInsert 100 [] ⟨"Vec".toList, [CxxTy.udTemplate "A".toList [CxxTy.builtin 5]], []⟩ 7)
        ⟨"Vec".toList, [CxxTy.udTemplate "B".toList [CxxTy.builtin 5]], []⟩ = some 7 := by
  refine ⟨?_, by rfl, by rfl⟩
  intro h
  simp [CCTKey.mk.injEq] at h

/-- Claim C3, amended: instantiation requests with identical keys are
memoized — looking up the key just inserted returns the stored type, at
every fuel — but the ordering used for memoization keys is not a strict
weak order on structurally distinct types: the conjunction-shaped
`operator<` of `UserDefinedTemplateType` makes keys that differ only in the
base name of a nested template type (with equal template argument lists)
mutually incomparable, so they collide to the same table entry. -/
theorem c3_amended :
    (∀ f (k : CCTKey) (v : Nat), cctLookup f (cctInsert f [] k v) k = some v)
    ∧ keyEquiv 100 ⟨"Vec".toList, [CxxTy.udTemplate "A".toList [CxxTy.builtin 5]], []⟩
        ⟨"Vec".toList, [CxxTy.udTemplate "B".toList [CxxTy.builtin 5]], []⟩ = true
    ∧ keyEquiv 100 ⟨"Vec".toList, [CxxTy.builtin 3], []⟩
        ⟨"Vec".toList, [CxxTy.builtin 5], []⟩ = false := by
  refine ⟨?_, by rfl, by rfl⟩
  intro f k v
  simp [cctInsert, cctLookup, keyEquiv_self]

/-- Claim C4, counterexample: the claim's tie rule — when the two widths
are equal the result is unsigned if either operand is unsigned — fails on
the code: for a signed 32-bit left operand and an unsigned 32-bit right
operand, `IntegerImplicitConversion` does nothing, leaving the left operand
signed. -/
theorem c4_counterexample :
    ¬ ((integerImplicitConversion ⟨32, true⟩ ⟨32, false⟩).1.signed = false
        ∧ (integerImplicitConversion ⟨32, true⟩ ⟨32, false⟩).2.signed = false) := by
  decide

/-- Claim C4, amended: implicit promotion makes both operands share the
wider width, and the signedness of each output operand is that of the wider
operand when the widths differ; when the widths are equal nothing is
converted and each operand keeps its own signedness — there is no
unsigned-wins tie rule. -/
theorem c4_amended (l r : CgIntValue) :
    (integerImplicitConversion l r).1.width = max l.width r.width
    ∧ (integerImplicitConversion l r).2.width = max l.width r.width
    ∧ (integerImplicitConversion l r).1.signed
        = (if r.width ≤ l.width then l.signed else r.signed)
    ∧ (integerImplicitConversion l r).2.signed
        = (if l.width ≤ r.width then r.signed else l.signed) := by
  obtain ⟨wl, sl⟩ := l
  obtain ⟨wr, sr⟩ := r
  simp only [integerImplicitConversion]
  by_cases h : wl = wr
  · subst h
    simp
  · by_cases h2 : wr ≤ wl
    · have hmax : max wl wr = wl := Nat.max_eq_left h2
      have hx : ¬ wl ≤ wr := by omega
      simp [h, hmax, h2, hx]
    · have hmax : max wl wr = wr := Nat.max_eq_right (by omega)
      have h3 : ¬ wl = max wl wr := by omega
      have hx : wl ≤ wr := by omega
      simp [h, h3, hmax, h2, hx]

/-- Claim C5, counterexample: the claim says a char literal lowers to a
32-bit constant holding the literal's codepoint; the code builds an 8-bit
constant (the source comment reads "Char literal is u8"), so the codepoint
U+3042 (12354) lowers to an 8-bit constant holding 66, not a u32 holding
12354. -/
theorem c5_counterexample :
    lowerCharLiteral 12354 ≠ ⟨32, 12354⟩ ∧ lowerCharLiteral 12354 = ⟨8, 66⟩ := by
  decide

/-- Claim C5, amended: for every char literal, lowering produces an 8-bit
(u8) constant holding the literal's Unicode codepoint truncated modulo 256. -/
theorem c5_amended (cp : Nat) :
    (lowerCharLiteral cp).width = 8 ∧ (lowerCharLiteral cp).value = cp % 256
    ∧ (lowerCharLiteral cp).width ≠ 32 := by
  refine ⟨rfl, rfl, ?_⟩
  intro h
  simp [lowerCharLiteral, constantIntGet] at h

/-- Claim C6, counterexample: the claim's widening clause fails on the code
— an 8-bit integer argument passed for a 32-bit integer parameter is
permitted by implicit integer widening, yet the call lowerer validates by
exact LLVM type equality and raises instead of emitting a widened call. -/
theorem c6_counterexample :
    widensTo (LLVMTy.intTy 8) (LLVMTy.intTy 32) = true
    ∧ lowerFunctionCall ⟨[LLVMTy.intTy 32], false⟩ [LLVMTy.intTy 8]
        = Except.error CallErr.incompatibleArg :=
  ⟨rfl, rfl⟩

/-- Claim C6, amended: a variadic callee skips the arity check and a
non-variadic callee with a different argument count raises with no call
emitted, as claimed; but each argument's type is validated against the
corresponding parameter type by exact equality — no implicit integer
widening is applied at the call site — so the call is emitted exactly when
the arity constraint holds and the declared parameter types are literally an
initial segment of the argument types. -/
theorem c6_amended (callee : CalleeFn) (args : List LLVMTy) :
    lowerFunctionCall callee args = Except.ok ()
      ↔ ((callee.varArg = true ∨ callee.params.length = args.length)
          ∧ callee.params.length ≤ args.length
          ∧ args.take callee.params.length = callee.params) := by
  obtain ⟨ps, va⟩ := callee
  cases va with
  | false =>
    by_cases h : ps.length = args.length
    · simp [lowerFunctionCall, h, verifyCallArgs_ok]
    · simp [lowerFunctionCall, h, verifyCallArgs_ok]
  | true => simp [lowerFunctionCall, verifyCallArgs_ok]

/-- Claim C7, counterexample: the claim says the parse result is accepted
only if zero expectation failures occurred. For the input `func f(){if;}`
the malformed if statement raises one expectation failure (at the missing
parenthesis after `if`), the if-statement rule's handler counts it and
fails, and the expression-statement alternative then re-parses `if;`
successfully (`if` is a valid identifier); the whole program is accepted
with the whole input consumed while the global error counter reports 1. -/
theorem c7_counterexample :
    parserParse 100 cexProgramText = Except.ok ()
    ∧ (programP 100 cexProgramText 0).2 = 1 :=
  ⟨rfl, rfl⟩

/-- Claim C7, amended: the parse result is accepted exactly when the
`program` rule matches with the entire input consumed; when it is not
accepted the parser fails reporting the total expectation-failure count.
Zero expectation failures is not necessary for acceptance: an expectation
failure that a failed alternative raised and another alternative recovered
leaves the accepted parse with a positive reported error count, as the
accepted input `func f(){if;}` with error count 1 shows. -/
theorem c7_amended :
    (∀ f input, parserParse f input
        = match programP f input 0 with
          | (POut.ok [], _) => Except.ok ()
          | (POut.ok (_ :: _), n) => Except.error n
          | (POut.soft, n) => Except.error n
          | (POut.exc, n) => Except.error n)
    ∧ parserParse 100 cexProgramText = Except.ok ()
    ∧ (programP 100 cexProgramText 0).2 ≠ 0 := by
  refine ⟨?_, rfl, by intro h; exact absurd h (by norm_num [show (programP 100 cexProgramText 0).2 = 1 from rfl])⟩
  intro f input
  unfold parserParse
  rcases h : programP f input 0 with ⟨out, n⟩
  cases out with
  | ok rest =>
    cases rest with
    | nil => simp
    | cons c cs => simp
  | soft => simp
  | exc => simp

/-- Claim C8, counterexample: the claim says prefix increment/decrement
adds a constant 1 whose width equals the operand's width and yields the new
value. For a 64-bit operand the constant `one` is built with
`ctx.builder.getInt32Ty()` — its width is 32, not 64 — and the visitor
returns void, yielding nothing. -/
theorem c8_counterexample :
    (lowerIncDec 64).oneWidth = 32
    ∧ (lowerIncDec 64).oneWidth ≠ 64
    ∧ (lowerIncDec 64).producesValue = false := by
  decide

/-- Claim C8, amended: the constant 1 is always a 32-bit i32; the
addition/subtraction is performed, after implicit integer promotion, at the
wider of the operand's width and 32, which equals the operand's width
exactly when that width is at least 32; the computed value is stored back
through the operand's pointer and the statement produces no value. -/
theorem c8_amended (w : Nat) :
    (lowerIncDec w).oneWidth = 32
    ∧ (lowerIncDec w).oneValue = 1
    ∧ (lowerIncDec w).arithWidth = max w 32
    ∧ ((lowerIncDec w).arithWidth = w ↔ 32 ≤ w)
    ∧ (lowerIncDec w).storedWidth = (lowerIncDec w).arithWidth
    ∧ (lowerIncDec w).producesValue = false := by
  refine ⟨rfl, rfl, rfl, ?_, rfl, rfl⟩
  show createAddWidth w 32 = w ↔ 32 ≤ w
  simp only [createAddWidth]
  exact max_eq_left_iff

/-- Claim C9, counterexample: the claim says two namespace stacks whose
entry names are pairwise equal but whose kinds differ compare as distinct
keys. `Namespace::operator<` compares only the names, so the stacks
`[("A", namespace)]` and `[("A", class)]` are different yet neither
compares less than the other: as `std::map` keys they are equivalent, not
distinct. -/
theorem c9_counterexample :
    ([⟨"A".toList, TwNamespaceKind.namespace_⟩] : List TwNamespace).map (fun e => e.name)
        = ([⟨"A".toList, TwNamespaceKind.class_⟩] : List TwNamespace).map (fun e => e.name)
    ∧ ([⟨"A".toList, TwNamespaceKind.namespace_⟩] : List TwNamespace)
        ≠ [⟨"A".toList, TwNamespaceKind.class_⟩]
    ∧ namespaceStackLess [⟨"A".toList, TwNamespaceKind.namespace_⟩]
        [⟨"A".toList, TwNamespaceKind.class_⟩] = false
    ∧ namespaceStackLess [⟨"A".toList, TwNamespaceKind.class_⟩]
        [⟨"A".toList, TwNamespaceKind.namespace_⟩] = false := by
  decide

/-- Claim C9, amended: the ordering on NamespaceStack is lexicographic over
its entries compared by NAME ONLY — the kind does not participate — so any
two stacks whose entry names are pairwise equal are equivalent keys
(neither compares less than the other), even when some entry's kind
differs. -/
theorem c9_amended (a b : List TwNamespace)
    (h : a.map (fun e => e.name) = b.map (fun e => e.name)) :
    namespaceStackLess a b = false ∧ namespaceStackLess b a = false := by
  induction a generalizing b with
  | nil =>
    cases b with
    | nil => exact ⟨rfl, rfl⟩
    | cons y ys => simp at h
  | cons x xs ih =>
    cases b with
    | nil => simp at h
    | cons y ys =>
      simp only [List.map_cons, List.cons.injEq] at h
      obtain ⟨h1, h2⟩ := h
      have hrec := ih ys h2
      have hx : namespaceLess x y = false := by
        simp [namespaceLess, h1, charListLess_self]
      have hy : namespaceLess y x = false := by
        simp [namespaceLess, h1, charListLess_self]
      constructor
      · simp only [namespaceStackLess, lexCompare, hx, hy] at hrec ⊢
        simp [hrec.1]
      · simp only [namespaceStackLess, lexCompare, hx, hy] at hrec ⊢
        simp [hrec.2]

/-- Claim C9, amended, witness: the amended theorem applied to the concrete
stacks `[("N", namespace)]` and `[("N", class)]`. -/
theorem c9_amended_witness :
    namespaceStackLess [⟨"N".toList, TwNamespaceKind.namespace_⟩]
        [⟨"N".toList, TwNamespaceKind.class_⟩] = false
    ∧ namespaceStackLess [⟨"N".toList, TwNamespaceKind.class_⟩]
        [⟨"N".toList, TwNamespaceKind.namespace_⟩] = false :=
  c9_amended [⟨"N".toList, TwNamespaceKind.namespace_⟩]
    [⟨"N".toList, TwNamespaceKind.class_⟩] (by decide)

/-- Claim C10: a break or continue statement lowered with a statement
context that carries no break/continue target block (the situation outside
of any loop) succeeds, emits no instructions and raises no diagnostic —
the visitor's null check silently ignores the statement. The lowering
functions are total, mirroring the source code path, which has no error
exit. -/
theorem c10_break_continue_outside_loop (d e : String) (b c : Option String) :
    lowerBreak ⟨d, e, none, c⟩ = [] ∧ lowerContinue ⟨d, e, b, none⟩ = [] :=
  ⟨rfl, rfl⟩

/-- Claim C1, amended, witness: for the one-definition scope
`{ var b = B(); }` with every destructor defined, the destruct block calls
the destructor of `b` exactly once. -/
theorem c1_amended_witness :
    countCallsOn "b"
        (destructBBCalls (buildScope [⟨"b", CgType.classTy "B"⟩]) (fun _ => true)) = 1 := by
  have h := c1_amended [⟨"b", CgType.classTy "B"⟩] (fun _ => true) "b"
  simpa [lastTypeOf] using h

/-- Claim C4, amended, witness: converting a signed 8-bit and an unsigned
32-bit operand widens the left operand to an unsigned 32-bit value. -/
theorem c4_amended_witness :
    (integerImplicitConversion ⟨8, true⟩ ⟨32, false⟩).1.width = 32
    ∧ (integerImplicitConversion ⟨8, true⟩ ⟨32, false⟩).2.width = 32
    ∧ (integerImplicitConversion ⟨8, true⟩ ⟨32, false⟩).1.signed = false
    ∧ (integerImplicitConversion ⟨8, true⟩ ⟨32, false⟩).2.signed = false := by
  have h := c4_amended ⟨8, true⟩ ⟨32, false⟩
  simpa using h

/-- Claim C5, amended, witness: codepoint 300 lowers to the 8-bit constant
44. -/
theorem c5_amended_witness :
    (lowerCharLiteral 300).width = 8 ∧ (lowerCharLiteral 300).value = 44
    ∧ (lowerCharLiteral 300).width ≠ 32 := by
  have h := c5_amended 300
  simpa using h

/-- Claim C6, amended, witness: a call with exactly matching argument types
is emitted. -/
theorem c6_amended_witness :
    lowerFunctionCall ⟨[LLVMTy.intTy 32], false⟩ [LLVMTy.intTy 32] = Except.ok () :=
  (c6_amended ⟨[LLVMTy.intTy 32], false⟩ [LLVMTy.intTy 32]).mpr (by decide)

/-- Claim C8, amended, witness: the amended characterization at an 8-bit
operand (the arithmetic runs at 32 bits, wider than the operand). -/
theorem c8_amended_witness :
    (lowerIncDec 8).oneWidth = 32
    ∧ (lowerIncDec 8).oneValue = 1
    ∧ (lowerIncDec 8).arithWidth = max 8 32
    ∧ ((lowerIncDec 8).arithWidth = 8 ↔ 32 ≤ 8)
    ∧ (lowerIncDec 8).storedWidth = (lowerIncDec 8).arithWidth
    ∧ (lowerIncDec 8).producesValue = false :=
  c8_amended 8

/-- Claim C10, witness: the break and continue visitors at a concrete
out-of-loop statement context. -/
theorem c10_break_continue_outside_loop_witness :
    lowerBreak ⟨"destruct", "end", none, none⟩ = []
    ∧ lowerContinue ⟨"destruct", "end", none, none⟩ = [] :=
  c10_break_continue_outside_loop "destruct" "end" none none
